import Mathlib

/-!
Verification development for `src/invoicer/invoicer.py`.

The Python script reads a credentials file and a CSV of invoice records,
drives a browser (Playwright) to create one invoice per record, and keeps
a list of owner names whose invoice failed.

Modelling conventions used throughout this file:

* Python strings are `String`; a cell coming out of the CSV is a `PValue`
  (a string or a number, numbers modelled as `Rat`).  `pandas` missing
  cells (`NaN`) are `Option.none` before the `df.where(pd.notnull(df), '')`
  normalization of `read_data`.
* Fallible Python functions return `Option`/`Except`-like results; each
  distinct `raise` site of the source becomes a distinct error constructor.
* The browser is opaque: every Playwright call made by `create_invoice`
  becomes one `Action` in an emitted trace, and the batch loop of `main`
  becomes a state machine whose per-record driver failures are supplied by
  an environment oracle.
-/

namespace Invoicer

/-- A Python value as it appears in a CSV cell consumed by the script:
either a string or a number.  Numbers (pandas int64/float64 cells) are
modelled as rationals. -/
inductive PValue where
  | str (s : String)
  | num (q : Rat)
deriving DecidableEq

/-- Python truthiness of a `PValue`: the empty string and the number `0`
are falsy, everything else is truthy. -/
def pyTruthy : PValue → Bool
  | .str s => decide (s ≠ "")
  | .num q => decide (q ≠ 0)

/-- Python `!=` on `PValue`s: values of different kinds are always
unequal (as `"x" != 0` is `True` in Python). -/
def pyNe : PValue → PValue → Bool
  | .str a, .str b => decide (a ≠ b)
  | .num a, .num b => decide (a ≠ b)
  | _, _ => true

/-- Python `str(...)` of a `PValue`.  For strings it is the string itself;
for integral numbers it is the plain integer literal. -/
def pyStr : PValue → String
  | .str s => s
  | .num q => if q.den = 1 then toString q.num else toString q

/-! ## `read_credentials` (invoicer.py lines 21-48)

The source iterates over the lines of the file, strips each line, and on a
`Email: `/`Password: ` prefix stores `line.split(': ')[1]`.  After the
loop, `if email and password` returns the pair; otherwise the `elif`
chain raises a `ValueError` naming the first field that is still `None`,
and when neither `elif` fires (a field holds the empty string, which is
falsy but not `None`) the function falls through and returns Python
`None`.  We model the function on the list of lines of an existing file,
so the dead `is_file()` branch of the source is not represented. -/

/-- Python `str.strip()` on the character list of a string (whitespace
being space, tab, newline, carriage return). -/
def pyStrip (s : String) : String :=
  ⟨((s.data.dropWhile Char.isWhitespace).reverse.dropWhile Char.isWhitespace).reverse⟩

/-- Python `str.split(': ')`: split a character list on every
(left-to-right, non-overlapping) occurrence of colon-space. -/
def splitColonSpace : List Char → List (List Char)
  | [] => [[]]
  | ':' :: ' ' :: rest => [] :: splitColonSpace rest
  | c :: rest =>
    match splitColonSpace rest with
    | [] => [[c]]
    | h :: t => (c :: h) :: t

/-- Does the stripped line start with `Email: ` (source line 36)? -/
def matchesEmail (line : String) : Bool :=
  ("Email: ").data.isPrefixOf (pyStrip line).data

/-- Does the stripped line start with `Password: ` (source line 38)? -/
def matchesPassword (line : String) : Bool :=
  ("Password: ").data.isPrefixOf (pyStrip line).data

/-- `line.split(': ')[1]` applied to the stripped line (source
lines 37/39); index 1 exists whenever the prefix matched. -/
def credValue (line : String) : String :=
  ⟨(splitColonSpace (pyStrip line).data).getD 1 []⟩

/-- One iteration of the `for line in f` loop (source lines 34-39),
updating the `(email, password)` pair. -/
def credLine (st : Option String × Option String) (line : String) :
    Option String × Option String :=
  if matchesEmail line then (some (credValue line), st.2)
  else if matchesPassword line then (st.1, some (credValue line))
  else st

/-- The whole scanning loop of `read_credentials`, starting from
`email = None, password = None`. -/
def credScan (lines : List String) : Option String × Option String :=
  lines.foldl credLine (none, none)

/-- The `ValueError` raise sites of `read_credentials` (source
lines 46 and 48), identified by the field the message names. -/
inductive CredError where
  | missingEmail
  | missingPassword
deriving DecidableEq

/-- Result of `read_credentials`: the returned `(email, password)` pair, a
raised `ValueError`, or the implicit `None` return when the trailing
`if`/`elif` chain matches no branch. -/
inductive CredResult where
  | ok (email password : String)
  | err (e : CredError)
  | noneReturn
deriving DecidableEq

/-- `read_credentials` (source lines 21-48) on the lines of an existing
file.  The source first tests `if email and password` (Python truthiness)
and otherwise raises for the first field that `is None`; a field bound to
the empty string passes neither test, so the function ends without an
explicit return. -/
def read_credentials (lines : List String) : CredResult :=
  match credScan lines with
  | (none, _) => .err .missingEmail
  | (some _, none) => .err .missingPassword
  | (some e, some p) => if e ≠ "" ∧ p ≠ "" then .ok e p else .noneReturn

/-! ## `read_data` (invoicer.py lines 50-76)

A parsed CSV is a header (column names) and rows of cells, a missing cell
(pandas `NaN`) being `none`.  The source checks each required column in
order and raises naming the first absent one, then selects the required
columns in their listed order and replaces `NaN` by `''`
(`df.where(pd.notnull(df), '')`).  The purely file-level raise sites
(missing file, empty file, parse error) concern I/O and are not modelled. -/

/-- The `columns_to_extract` list of the source (line 62). -/
def columnsToExtract : List String :=
  ["Owner Name", "Invoiceable Hours", "Invoice Rate", "Green Waste Number", "Invoice note"]

/-- The `ValueError` raise site of `read_data` for an absent column
(source line 65). -/
inductive DataError where
  | missingColumn (name : String)
deriving DecidableEq

/-- A parsed CSV file: header names and rows of cells; `none` models a
pandas `NaN` (missing cell). -/
structure Frame where
  header : List String
  rows : List (List (Option PValue))

/-- Result of `read_data`: the selected and normalized rows, or a raised
`ValueError`. -/
inductive DataResult where
  | ok (rows : List (List PValue))
  | err (e : DataError)
deriving DecidableEq

/-- Value of column `c` in a row: the cell at the header position of `c`,
with `NaN` (or an absent position) normalized to the empty string, as
`df.where(pd.notnull(df), '')` does. -/
def cell (header : List String) (row : List (Option PValue)) (c : String) : PValue :=
  match header.indexOf? c with
  | some j => (row.getD j none).getD (.str "")
  | none => .str ""

/-- `read_data` (source lines 50-76): raise for the first required column
missing from the header, otherwise keep exactly the required columns, in
their listed order, with missing cells normalized to `''`. -/
def read_data (f : Frame) : DataResult :=
  match columnsToExtract.find? (fun c => !(f.header.contains c)) with
  | some c => .err (.missingColumn c)
  | none => .ok (f.rows.map (fun row => columnsToExtract.map (fun c => cell f.header row c)))

/-! ## Calendar dates (invoicer.py lines 121-123)

`create_invoice` reads the default value of the `#date` field, parses it
with `datetime.strptime(-, '%d/%m/%Y')`, adds `timedelta(days=14)` and
formats the sum with `strftime('%d/%m/%Y')`.  Dates are proleptic
Gregorian; Python restricts years to `1..9999` (`strptime` with `%Y`
matches exactly four digits, and `date + timedelta` raises
`OverflowError` beyond year 9999). -/

/-- A calendar date. -/
structure Date where
  day : Nat
  month : Nat
  year : Nat
deriving DecidableEq

/-- Gregorian leap year, as `datetime` uses. -/
def isLeap (y : Nat) : Bool :=
  y % 4 == 0 && (y % 100 != 0 || y % 400 == 0)

/-- Length of a month (0 for an out-of-range month index). -/
def daysInMonth (y m : Nat) : Nat :=
  match m with
  | 1 => 31 | 2 => if isLeap y then 29 else 28
  | 3 => 31 | 4 => 30 | 5 => 31 | 6 => 30
  | 7 => 31 | 8 => 31 | 9 => 30 | 10 => 31
  | 11 => 30 | 12 => 31
  | _ => 0

/-- A valid proleptic Gregorian date with a positive year. -/
def validDate (x : Date) : Prop :=
  1 ≤ x.year ∧ 1 ≤ x.month ∧ x.month ≤ 12 ∧ 1 ≤ x.day ∧ x.day ≤ daysInMonth x.year x.month

instance (x : Date) : Decidable (validDate x) := by
  unfold validDate; infer_instance

/-- The day after a date (the successor in the Gregorian calendar). -/
def nextDay (x : Date) : Date :=
  if x.day < daysInMonth x.year x.month then ⟨x.day + 1, x.month, x.year⟩
  else if x.month < 12 then ⟨1, x.month + 1, x.year⟩
  else ⟨1, 1, x.year + 1⟩

/-- Days of the year strictly before month `m`. -/
def daysBeforeMonth (y m : Nat) : Nat :=
  (match m with
   | 1 => 0 | 2 => 31 | 3 => 59 | 4 => 90 | 5 => 120 | 6 => 151
   | 7 => 181 | 8 => 212 | 9 => 243 | 10 => 273 | 11 => 304 | 12 => 334
   | _ => 0) + (if 3 ≤ m ∧ isLeap y then 1 else 0)

/-- Proleptic Gregorian ordinal of a date (01/01/0001 has ordinal 1),
the measure `date.toordinal` uses; it counts days linearly, so it is the
yardstick for what "n days later" means. -/
def toOrdinal (x : Date) : Nat :=
  365 * (x.year - 1) + (x.year - 1) / 4 - (x.year - 1) / 100 + (x.year - 1) / 400
    + daysBeforeMonth x.year x.month + x.day

/-- `date + timedelta(days=14)` (source line 122): advance the calendar
14 days; `None` models the `OverflowError` Python raises when the result
would leave the supported year range (`MAXYEAR = 9999`). -/
def addTwoWeeks (d : Date) : Option Date :=
  let e := nextDay^[14] d
  if e.year ≤ 9999 then some e else none

/-- Split a character list on `/`. -/
def splitSlash : List Char → List (List Char)
  | [] => [[]]
  | c :: rest =>
    if c = '/' then [] :: splitSlash rest
    else
      match splitSlash rest with
      | [] => [[c]]
      | h :: t => (c :: h) :: t

/-- Numeric value of a non-empty all-digit character list. -/
def digitsVal? (cs : List Char) : Option Nat :=
  if cs ≠ [] ∧ cs.all Char.isDigit then
    some (cs.foldl (fun n c => 10 * n + (c.toNat - 48)) 0)
  else none

/-- `datetime.strptime(s, '%d/%m/%Y')` (source line 121) restricted to
canonical numeric components: day and month of one or two digits, year of
exactly four digits (the `%Y` pattern), the whole validated as a calendar
date as the `datetime` constructor does. -/
def parseDate (s : String) : Option Date :=
  match splitSlash s.data with
  | [ds, ms, ys] =>
    if ds.length ≤ 2 ∧ ms.length ≤ 2 ∧ ys.length = 4 then
      match digitsVal? ds, digitsVal? ms, digitsVal? ys with
      | some d, some m, some y =>
        if validDate ⟨d, m, y⟩ then some ⟨d, m, y⟩ else none
      | _, _, _ => none
    else none
  | _ => none

/-- Zero-pad a number to two digits, as `strftime` `%d`/`%m` do. -/
def pad2 (n : Nat) : String :=
  if n < 10 then "0" ++ toString n else toString n

/-- `strftime('%d/%m/%Y')` (source line 123): zero-padded day and month;
the year prints as its decimal digits. -/
def formatDate (x : Date) : String :=
  pad2 x.day ++ "/" ++ pad2 x.month ++ "/" ++ toString x.year

/-! ## `create_invoice` (invoicer.py lines 103-147)

Each Playwright call becomes one `Action` of an emitted trace.  The
form's pre-filled `#date` value is the `dateValue` argument (the script
reads it with `input_value()` between clicking the owner and filling the
expiry).  The two internally fallible steps — `strptime` on the default
date and the `timedelta` addition — make the result an `Option`; `none`
models the raised exception (the record fails, no further step runs). -/

/-- One browser interaction of `create_invoice`, in source order. -/
inductive Action where
  | goto (url : String)
  | wait (ms : Nat)
  | fillPlaceholder (ph v : String)
  | clickButton (name : String)
  | fill (selector v : String)
  | clickPlaceholder (ph : String)
deriving DecidableEq

/-- The condition guarding the green-waste block (source line 134):
`green_waste_no and green_waste_no != '' and green_waste_no != 0`. -/
def greenWasteCond (v : PValue) : Bool :=
  pyTruthy v && pyNe v (.str "") && pyNe v (.num 0)

/-- `create_invoice` (source lines 103-147) as the trace of browser
actions it performs, given the default value of the `#date` field.
`none` models the exception raised while computing the expiry date. -/
def create_invoice (owner_name : String)
    (invoiceable_hrs hourly_rate green_waste_no invoice_note : PValue)
    (dateValue : String) : Option (List Action) :=
  match parseDate dateValue with
  | none => none
  | some d =>
    match addTwoWeeks d with
    | none => none
    | some e =>
      some (
        [.goto "https://app.afirmo.com/sales/invoices/add",
         .wait 1000,
         .fillPlaceholder "Search contacts" owner_name,
         .wait 1000,
         .clickButton owner_name,
         .fill "#expiryDate" "",
         .fill "#expiryDate" (formatDate e),
         .clickPlaceholder "Select product",
         .clickButton "Gardening- hourly",
         .fill "#items\\[0\\]\\.qty" "",
         .fill "#items\\[0\\]\\.qty" (pyStr invoiceable_hrs),
         .fill "#items\\[0\\]\\.unitAmount" "",
         .fill "#items\\[0\\]\\.unitAmount" (pyStr hourly_rate)]
        ++ (if greenWasteCond green_waste_no then
              [.clickButton "new row",
               .clickPlaceholder "Select product",
               .clickButton "Green waste removal",
               .fill "#items\\[1\\]\\.qty" "",
               .fill "#items\\[1\\]\\.qty" (pyStr green_waste_no)]
            else [])
        ++ (if pyTruthy invoice_note then
              [.clickButton "new Notes",
               .fill "input[name=\"inotes\\[0\\]\\.text\"]" (pyStr invoice_note)]
            else [])
        ++ [.wait 1000, .clickButton "Save", .wait 5000])

/-- The spec-side absence rule for `green_waste_count`: present exactly
when it is a non-empty string or a non-zero number (missing cells having
been normalized to `''` by `read_data`). -/
def gwPresent : PValue → Bool
  | .str t => decide (t ≠ "")
  | .num q => decide (q ≠ 0)

/-! ## The batch loop of `main` (invoicer.py lines 158-192)

The loop is modelled as a state machine over the list of owner names.
Whether the driver fails for a given record is supplied by an environment
oracle `env : Nat → Env`: for record `i`, `(env i).initRes` says whether
`initialize_invoicer` (if attempted) raises before or after
`p.chromium.launch` succeeds, and `(env i).createFails` whether
`create_invoice` (if reached) raises.  Launched browsers get consecutive
ids so that the set of live (launched and not closed) browsers is
observable; `attempts` records the indices of records for which
`create_invoice` was actually invoked. -/

/-- Outcome of one `initialize_invoicer` call (source lines 78-101): the
`chromium.launch` itself raises (no browser exists), a later step of the
`try` block raises (a browser was launched, and the `except` clause only
logs and re-raises, closing nothing), or the whole call returns. -/
inductive InitRes where
  | launchFail
  | postLaunchFail
  | ok
deriving DecidableEq

/-- Environment oracle entry for one record. -/
structure Env where
  initRes : InitRes
  createFails : Bool
deriving DecidableEq

/-- State of the batch loop: the `browser`/`page` handle of `main`
(holding the id of the launched browser, the two variables being always
both `None` or both set), the next fresh id, the ids launched and closed
so far, the `failed_owners` list, the progress-bar count, and the indices
of records for which `create_invoice` was invoked. -/
structure LoopSt where
  browser : Option Nat
  nextId : Nat
  launched : List Nat
  closed : List Nat
  failedOwners : List String
  progress : Nat
  attempts : List Nat
deriving DecidableEq

/-- The loop state before the first record (source lines 158-165). -/
def initSt : LoopSt := ⟨none, 0, [], [], [], 0, []⟩

/-- One iteration of `for _, row in df.iterrows()` (source lines 167-189)
for record `i` with owner name `owner`: re-initialize when the handle is
`None`, call `create_invoice`, and on any exception append the owner to
`failed_owners`, close the held browser if any, and clear the handle;
finally advance the progress bar. -/
def processRecord (e : Env) (i : Nat) (owner : String) (st : LoopSt) : LoopSt :=
  match st.browser with
  | none =>
    match e.initRes with
    | .launchFail =>
      { st with failedOwners := st.failedOwners ++ [owner],
                progress := st.progress + 1 }
    | .postLaunchFail =>
      { st with launched := st.launched ++ [st.nextId],
                nextId := st.nextId + 1,
                failedOwners := st.failedOwners ++ [owner],
                progress := st.progress + 1 }
    | .ok =>
      let b := st.nextId
      if e.createFails then
        { st with launched := st.launched ++ [b],
                  nextId := b + 1,
                  attempts := st.attempts ++ [i],
                  failedOwners := st.failedOwners ++ [owner],
                  closed := st.closed ++ [b],
                  browser := none,
                  progress := st.progress + 1 }
      else
        { st with launched := st.launched ++ [b],
                  nextId := b + 1,
                  attempts := st.attempts ++ [i],
                  browser := some b,
                  progress := st.progress + 1 }
  | some b =>
    if e.createFails then
      { st with attempts := st.attempts ++ [i],
                failedOwners := st.failedOwners ++ [owner],
                closed := st.closed ++ [b],
                browser := none,
                progress := st.progress + 1 }
    else
      { st with attempts := st.attempts ++ [i],
                progress := st.progress + 1 }

/-- The loop over the remaining records, `i` being the index of the first
of them. -/
def runFrom (env : Nat → Env) : Nat → List String → LoopSt → LoopSt
  | _, [], st => st
  | i, r :: rs, st => runFrom env (i + 1) rs (processRecord (env i) i r st)

/-- The whole loop of `main` over the records, from the initial state. -/
def runLoop (env : Nat → Env) (records : List String) : LoopSt :=
  runFrom env 0 records initSt

/-- The final `if browser: browser.close()` of `main` (lines 191-192). -/
def cleanup (st : LoopSt) : LoopSt :=
  match st.browser with
  | some b => { st with closed := st.closed ++ [b], browser := none }
  | none => st

/-- The batch run: the loop followed by the final cleanup. -/
def mainRun (env : Nat → Env) (records : List String) : LoopSt :=
  cleanup (runLoop env records)

/-- The browsers that are live in a state: launched and not closed. -/
def liveBrowsers (st : LoopSt) : List Nat :=
  st.launched.filter (fun b => !(st.closed.contains b))

/-- Spec-side characterization: is a live session held when record `i` is
reached?  No session before record 0; afterwards a session is live
exactly when the previous record either kept or freshly established one
and its `create_invoice` did not fail. -/
def liveBefore (env : Nat → Env) : Nat → Bool
  | 0 => false
  | i + 1 => (liveBefore env i || decide ((env i).initRes = .ok)) && !(env i).createFails

/-- Spec-side characterization: does record `i` fail?  With a live
session only a `create_invoice` failure counts; without one, a failed
initialization or a failed `create_invoice`. -/
def recFails (env : Nat → Env) (i : Nat) : Bool :=
  if liveBefore env i then (env i).createFails
  else decide ((env i).initRes ≠ .ok) || (env i).createFails

/-- Spec-side characterization: is `create_invoice` invoked for record
`i`?  Exactly when a session is already live or initialization succeeds. -/
def attemptedAt (env : Nat → Env) (i : Nat) : Bool :=
  liveBefore env i || decide ((env i).initRes = .ok)

/-- The owner names of the failing records among `rs`, in input order,
`i` being the index of the first of them. -/
def failuresFrom (env : Nat → Env) : Nat → List String → List String
  | _, [] => []
  | i, r :: rs => (if recFails env i then [r] else []) ++ failuresFrom env (i + 1) rs

/-- The indices of the records among `rs` for which `create_invoice` is
invoked, in input order. -/
def attemptsFrom (env : Nat → Env) : Nat → List String → List Nat
  | _, [] => []
  | i, _ :: rs => (if attemptedAt env i then [i] else []) ++ attemptsFrom env (i + 1) rs

/-- The number of successful records among `rs`. -/
def successesFrom (env : Nat → Env) : Nat → List String → Nat
  | _, [] => 0
  | i, _ :: rs => (if recFails env i then 0 else 1) + successesFrom env (i + 1) rs

/-- An environment in which initialization for record 0 fails after the
browser is launched and everything afterwards succeeds. -/
def envLeak : Nat → Env :=
  fun i => if i = 0 then ⟨.postLaunchFail, false⟩ else ⟨.ok, false⟩

/-! ## Helper lemmas: calendar arithmetic -/

theorem daysInMonth_pos (y m : Nat) (h1 : 1 ≤ m) (h2 : m ≤ 12) : 1 ≤ daysInMonth y m := by
  interval_cases m <;> cases h : isLeap y <;> simp [daysInMonth, h]

theorem validDate_nextDay (x : Date) (hv : validDate x) : validDate (nextDay x) := by
  obtain ⟨d, m, y⟩ := x
  dsimp only [validDate] at hv
  obtain ⟨hy, hm1, hm2, hd1, hd2⟩ := hv
  dsimp only [nextDay]
  split_ifs with h1 h2 <;> dsimp only [validDate]
  · exact ⟨hy, hm1, hm2, by omega, h1⟩
  · exact ⟨hy, by omega, h2, le_refl 1,
      daysInMonth_pos y (m + 1) (by omega) (by omega)⟩
  · exact ⟨by omega, le_refl 1, by omega, le_refl 1, by simp [daysInMonth]⟩

set_option maxHeartbeats 800000 in
theorem toOrdinal_nextDay (x : Date) (hv : validDate x) :
    toOrdinal (nextDay x) = toOrdinal x + 1 := by
  obtain ⟨d, m, y⟩ := x
  dsimp only [validDate] at hv
  obtain ⟨hy, hm1, hm2, hd1, hd2⟩ := hv
  dsimp only [nextDay]
  split_ifs with h1 h2
  · dsimp only [toOrdinal]
    omega
  · have hde : d = daysInMonth y m := by omega
    have key : daysBeforeMonth y (m + 1) = daysBeforeMonth y m + daysInMonth y m := by
      interval_cases m <;> cases hL : isLeap y <;>
        simp [daysBeforeMonth, daysInMonth, hL]
    dsimp only [toOrdinal]
    omega
  · have hm12 : m = 12 := by omega
    subst hm12
    simp [daysInMonth] at hd2 h1
    have hde : d = 31 := by omega
    subst hde
    have hb1 : daysBeforeMonth (y + 1) 1 = 0 := by simp [daysBeforeMonth]
    by_cases hL : isLeap y = true
    · have hb12 : daysBeforeMonth y 12 = 335 := by simp [daysBeforeMonth, hL]
      have h4 : y % 4 = 0 ∧ (y % 100 ≠ 0 ∨ y % 400 = 0) := by
        simpa [isLeap] using hL
      dsimp only [toOrdinal]
      rw [hb1, hb12]
      simp only [Nat.add_sub_cancel]
      omega
    · have hLf : isLeap y = false := by simpa using hL
      have hb12 : daysBeforeMonth y 12 = 334 := by simp [daysBeforeMonth, hLf]
      have h4 : ¬(y % 4 = 0 ∧ (y % 100 ≠ 0 ∨ y % 400 = 0)) := by
        intro hc
        have hL2 : isLeap y = true := by simpa [isLeap] using hc
        rw [hL2] at hLf
        simp at hLf
      dsimp only [toOrdinal]
      rw [hb1, hb12]
      simp only [Nat.add_sub_cancel]
      by_cases h44 : y % 4 = 0
      · by_cases h100 : y % 100 = 0
        · have h400 : y % 400 ≠ 0 := fun hx => h4 ⟨h44, Or.inr hx⟩
          omega
        · exact absurd ⟨h44, Or.inl h100⟩ h4
      · omega

theorem nextDay_iter (n : Nat) (x : Date) (hv : validDate x) :
    validDate (nextDay^[n] x) ∧ toOrdinal (nextDay^[n] x) = toOrdinal x + n := by
  induction n with
  | zero => exact ⟨hv, rfl⟩
  | succ n ih =>
    rw [Function.iterate_succ_apply']
    exact ⟨validDate_nextDay _ ih.1, by rw [toOrdinal_nextDay _ ih.1, ih.2]; omega⟩

theorem parseDate_valid {s : String} {d : Date} (h : parseDate s = some d) : validDate d := by
  unfold parseDate at h
  split at h
  · split at h
    · split at h
      · split at h
        · cases h
          assumption
        · exact Option.noConfusion h
      · exact Option.noConfusion h
    · exact Option.noConfusion h
  · exact Option.noConfusion h

/-! ## Claims C3, C4, C5: the invoice-creation trace -/

/-- Claim C3 (amended): if the default value of the date field parses as a
calendar date `D` and adding two weeks does not overflow the supported
year range, then `create_invoice` succeeds and its trace clears the
expiry field and immediately afterwards writes into it the `dd/mm/yyyy`
rendering of the valid calendar date exactly 14 days after `D`. -/
theorem expiry_two_weeks_after_default (owner : String)
    (hrs rate gw note : PValue) (s : String) (d e : Date)
    (hp : parseDate s = some d) (ha : addTwoWeeks d = some e) :
    validDate e ∧ toOrdinal e = toOrdinal d + 14 ∧
    ∃ pre post, create_invoice owner hrs rate gw note s =
      some (pre ++ [.fill "#expiryDate" "", .fill "#expiryDate" (formatDate e)] ++ post) := by
  have hv := parseDate_valid hp
  have he : e = nextDay^[14] d := by
    simp only [addTwoWeeks] at ha
    split at ha
    · exact (Option.some_inj.mp ha).symm
    · exact Option.noConfusion ha
  obtain ⟨h1, h2⟩ := nextDay_iter 14 d hv
  refine ⟨?_, ?_, ?_⟩
  · rw [he]; exact h1
  · rw [he]; exact h2
  · refine ⟨[.goto "https://app.afirmo.com/sales/invoices/add",
      .wait 1000, .fillPlaceholder "Search contacts" owner, .wait 1000,
      .clickButton owner],
      ([.clickPlaceholder "Select product",
        .clickButton "Gardening- hourly",
        .fill "#items\\[0\\]\\.qty" "",
        .fill "#items\\[0\\]\\.qty" (pyStr hrs),
        .fill "#items\\[0\\]\\.unitAmount" "",
        .fill "#items\\[0\\]\\.unitAmount" (pyStr rate)]
        ++ (if greenWasteCond gw then
              [.clickButton "new row",
               .clickPlaceholder "Select product",
               .clickButton "Green waste removal",
               .fill "#items\\[1\\]\\.qty" "",
               .fill "#items\\[1\\]\\.qty" (pyStr gw)]
            else [])
        ++ (if pyTruthy note then
              [.clickButton "new Notes",
               .fill "input[name=\"inotes\\[0\\]\\.text\"]" (pyStr note)]
            else [])
        ++ [.wait 1000, .clickButton "Save", .wait 5000]), ?_⟩
    simp only [create_invoice, hp, ha]
    simp only [List.cons_append, List.nil_append, List.append_assoc]

/-- Claim C3 witness: for default date `28/02/2024` the written expiry is
`13/03/2024` (month rollover across a leap-year February). -/
theorem expiry_two_weeks_witness :
    (validDate ⟨13, 3, 2024⟩ ∧ toOrdinal ⟨13, 3, 2024⟩ = toOrdinal ⟨28, 2, 2024⟩ + 14 ∧
     ∃ pre post, create_invoice "Bob" (.num 2) (.num 50) (.num 3) (.str "note") "28/02/2024" =
       some (pre ++ [.fill "#expiryDate" "", .fill "#expiryDate" (formatDate ⟨13, 3, 2024⟩)] ++ post)) ∧
    formatDate ⟨13, 3, 2024⟩ = "13/03/2024" :=
  ⟨expiry_two_weeks_after_default "Bob" (.num 2) (.num 50) (.num 3) (.str "note") "28/02/2024"
     ⟨28, 2, 2024⟩ ⟨13, 3, 2024⟩ (by decide) (by decide), by decide⟩

/-- Claim C3 counterexample: `31/12/9999` is a valid calendar date in the
`dd/mm/yyyy` display format, yet `date + timedelta(days=14)` overflows the
`datetime` year range there, so `create_invoice` raises and nothing is
ever written into the expiry field, against the claim's "any valid
calendar date". -/
theorem expiry_overflow_cex :
    parseDate "31/12/9999" = some ⟨31, 12, 9999⟩ ∧
    create_invoice "A" (.num 1) (.num 1) (.num 0) (.str "") "31/12/9999" = none := by
  constructor
  · decide
  · decide

/-- The source condition `green_waste_no and green_waste_no != '' and
green_waste_no != 0` coincides with the spec absence rule. -/
theorem greenWasteCond_eq (v : PValue) : greenWasteCond v = gwPresent v := by
  cases v with
  | str t => simp [greenWasteCond, gwPresent, pyTruthy, pyNe]
  | num q => simp [greenWasteCond, gwPresent, pyTruthy, pyNe]

/-- Claim C4: in every successful `create_invoice` trace, the green-waste
line item (its quantity field `items[1].qty`) is filled if and only if
`green_waste_count` is present per the absence rule (non-empty string or
non-zero number; empty string — the normalization of a missing cell — and
zero suppress it), and when present the product is selected and the
quantity written is `str(green_waste_no)`. -/
theorem green_waste_iff_present (owner : String) (hrs rate gw note : PValue)
    (s : String) (acts : List Action)
    (h : create_invoice owner hrs rate gw note s = some acts) :
    ((∃ v, Action.fill "#items\\[1\\]\\.qty" v ∈ acts) ↔ gwPresent gw = true) ∧
    (gwPresent gw = true →
      Action.clickButton "Green waste removal" ∈ acts ∧
      Action.fill "#items\\[1\\]\\.qty" (pyStr gw) ∈ acts) := by
  cases hp : parseDate s with
  | none => simp [create_invoice, hp] at h
  | some d =>
    cases ha : addTwoWeeks d with
    | none => simp [create_invoice, hp, ha] at h
    | some e =>
      simp only [create_invoice, hp, ha, Option.some_inj] at h
      subst h
      have hg := greenWasteCond_eq gw
      cases hgw : gwPresent gw <;> rw [hgw] at hg <;>
        cases hn : pyTruthy note <;> simp [hg, hn]

/-- Claim C4 witness: quantity `3` adds the green-waste item with
quantity string `3`; quantity `0` suppresses it. -/
theorem green_waste_witness :
    (Action.fill "#items\\[1\\]\\.qty" "3" ∈
      ((create_invoice "Bob" (.num 2) (.num 50) (.num 3) (.str "") "01/01/2024").getD [])) ∧
    ¬(∃ v, Action.fill "#items\\[1\\]\\.qty" v ∈
      ((create_invoice "Bob" (.num 2) (.num 50) (.num 0) (.str "") "01/01/2024").getD [])) := by
  have h3 : create_invoice "Bob" (.num 2) (.num 50) (.num 3) (.str "") "01/01/2024" =
      some ((create_invoice "Bob" (.num 2) (.num 50) (.num 3) (.str "") "01/01/2024").getD []) := by
    decide
  have h0 : create_invoice "Bob" (.num 2) (.num 50) (.num 0) (.str "") "01/01/2024" =
      some ((create_invoice "Bob" (.num 2) (.num 50) (.num 0) (.str "") "01/01/2024").getD []) := by
    decide
  constructor
  · have hm := (green_waste_iff_present "Bob" (.num 2) (.num 50) (.num 3) (.str "") "01/01/2024"
      _ h3).2 (by decide)
    have hs : pyStr (PValue.num 3) = "3" := by decide
    exact hs ▸ hm.2
  · intro hv
    exact absurd ((green_waste_iff_present "Bob" (.num 2) (.num 50) (.num 0) (.str "") "01/01/2024"
      _ h0).1.mp hv) (by decide)

/-- Claim C5: in every successful `create_invoice` trace, the notes field
is written if and only if the record's note is a non-empty string (missing
cells having been normalized to the empty string by `read_data`), and then
the value written is the note itself. -/
theorem note_step_iff_nonempty (owner : String) (hrs rate gw : PValue) (t : String)
    (s : String) (acts : List Action)
    (h : create_invoice owner hrs rate gw (.str t) s = some acts) :
    ((∃ v, Action.fill "input[name=\"inotes\\[0\\]\\.text\"]" v ∈ acts) ↔ t ≠ "") ∧
    (t ≠ "" → Action.fill "input[name=\"inotes\\[0\\]\\.text\"]" t ∈ acts) := by
  cases hp : parseDate s with
  | none => simp [create_invoice, hp] at h
  | some d =>
    cases ha : addTwoWeeks d with
    | none => simp [create_invoice, hp, ha] at h
    | some e =>
      simp only [create_invoice, hp, ha, Option.some_inj] at h
      subst h
      have hg := greenWasteCond_eq gw
      by_cases ht : t = ""
      · subst ht
        cases hgw : gwPresent gw <;> rw [hgw] at hg <;> simp [hg, pyTruthy, pyStr]
      · cases hgw : gwPresent gw <;> rw [hgw] at hg <;> simp [hg, pyTruthy, pyStr, ht]

/-- Claim C5 witness: a non-empty note is written into the notes field. -/
theorem note_step_witness :
    Action.fill "input[name=\"inotes\\[0\\]\\.text\"]" "call me" ∈
      ((create_invoice "Bob" (.num 2) (.num 50) (.num 0) (.str "call me") "01/01/2024").getD []) := by
  have h : create_invoice "Bob" (.num 2) (.num 50) (.num 0) (.str "call me") "01/01/2024" =
      some ((create_invoice "Bob" (.num 2) (.num 50) (.num 0) (.str "call me") "01/01/2024").getD []) := by
    decide
  exact (note_step_iff_nonempty "Bob" (.num 2) (.num 50) (.num 0) "call me" "01/01/2024"
    _ h).2 (by decide)

/-! ## Claims C1, C2, C6, C7: the batch loop -/

/-- Being live before record `i + 1` is exactly record `i` not failing. -/
theorem liveBefore_succ (env : Nat → Env) (i : Nat) :
    liveBefore env (i + 1) = !(recFails env i) := by
  unfold recFails
  cases hl : liveBefore env i with
  | false => simp [liveBefore, hl, Bool.not_or, decide_not]
  | true => simp [liveBefore, hl]

/-- Effect of one loop iteration on the observable state fields. -/
theorem processRecord_fields (env : Nat → Env) (i : Nat) (r : String) (st : LoopSt)
    (h : st.browser.isSome = liveBefore env i) :
    (processRecord (env i) i r st).failedOwners
        = st.failedOwners ++ (if recFails env i then [r] else []) ∧
    (processRecord (env i) i r st).progress = st.progress + 1 ∧
    (processRecord (env i) i r st).attempts
        = st.attempts ++ (if attemptedAt env i then [i] else []) ∧
    (processRecord (env i) i r st).browser.isSome = liveBefore env (i + 1) := by
  cases hb : st.browser with
  | none =>
    have hl : liveBefore env i = false := by rw [hb] at h; simpa using h.symm
    cases hi : (env i).initRes <;>
      cases hc : (env i).createFails <;>
        simp [processRecord, hb, hi, hc, recFails, attemptedAt, liveBefore, hl]
  | some b =>
    have hl : liveBefore env i = true := by rw [hb] at h; simpa using h.symm
    cases hc : (env i).createFails <;>
      simp [processRecord, hb, hc, recFails, attemptedAt, liveBefore, hl]

/-- Master invariant of the batch loop: starting at index `i` in a state
whose session handle matches `liveBefore`, the loop appends exactly the
failing owners in input order, advances the progress bar once per record,
invokes `create_invoice` exactly for the attempted indices, and ends with
a handle matching `liveBefore` past the processed records. -/
theorem runFrom_spec (env : Nat → Env) (rs : List String) :
    ∀ (i : Nat) (st : LoopSt), st.browser.isSome = liveBefore env i →
      (runFrom env i rs st).failedOwners = st.failedOwners ++ failuresFrom env i rs ∧
      (runFrom env i rs st).progress = st.progress + rs.length ∧
      (runFrom env i rs st).attempts = st.attempts ++ attemptsFrom env i rs ∧
      (runFrom env i rs st).browser.isSome = liveBefore env (i + rs.length) := by
  induction rs with
  | nil =>
    intro i st h
    simpa [runFrom, failuresFrom, attemptsFrom] using h
  | cons r rs ih =>
    intro i st h
    obtain ⟨p1, p2, p3, p4⟩ := processRecord_fields env i r st h
    obtain ⟨f1, f2, f3, f4⟩ := ih (i + 1) (processRecord (env i) i r st) p4
    refine ⟨?_, ?_, ?_, ?_⟩
    · simp only [runFrom, f1, p1, failuresFrom, List.append_assoc]
    · simp only [runFrom, f2, p2, List.length_cons]
      omega
    · simp only [runFrom, f3, p3, attemptsFrom, List.append_assoc]
    · simp only [runFrom, f4, List.length_cons]
      have he2 : i + 1 + rs.length = i + (rs.length + 1) := by omega
      rw [he2]

/-- The final cleanup touches only the browser handle. -/
theorem cleanup_fields (st : LoopSt) :
    (cleanup st).failedOwners = st.failedOwners ∧
    (cleanup st).progress = st.progress ∧
    (cleanup st).attempts = st.attempts := by
  cases hb : st.browser <;> simp [cleanup, hb]

/-- Failures and successes partition the records. -/
theorem failuresFrom_length (env : Nat → Env) :
    ∀ (rs : List String) (i : Nat),
      (failuresFrom env i rs).length + successesFrom env i rs = rs.length := by
  intro rs
  induction rs with
  | nil => intro i; simp [failuresFrom, successesFrom]
  | cons r rs ih =>
    intro i
    have hih := ih (i + 1)
    cases hf : recFails env i <;>
      simp [failuresFrom, successesFrom, hf] <;> omega

/-- Claim C1: for every record list and every behaviour of the driver,
the batch run processes records in strict input order and each record
yields exactly one definitive outcome: the failure list is exactly the
owner names of the failing records in input order (none skipped, none
duplicated), failures plus successes count the records, and the progress
observer is advanced exactly once per record. -/
theorem batch_every_record_one_outcome (env : Nat → Env) (records : List String) :
    (mainRun env records).failedOwners = failuresFrom env 0 records ∧
    (mainRun env records).failedOwners.length + successesFrom env 0 records = records.length ∧
    (mainRun env records).progress = records.length := by
  obtain ⟨f1, f2, f3, f4⟩ := runFrom_spec env records 0 initSt (by simp [initSt, liveBefore])
  obtain ⟨c1, c2, c3⟩ := cleanup_fields (runLoop env records)
  have h1 : (mainRun env records).failedOwners = failuresFrom env 0 records := by
    rw [mainRun, c1, runLoop, f1]
    simp [initSt]
  refine ⟨h1, ?_, ?_⟩
  · rw [h1, failuresFrom_length]
  · rw [mainRun, c2, runLoop, f2]
    simp [initSt]

/-- Claim C2: whenever record `i` fails (at initialization or inside
`create_invoice`), the session handle is `None` once record `i` has been
processed, so the next record starts from the ensure-session path. -/
theorem session_cleared_after_failure (env : Nat → Env) (records : List String) (i : Nat)
    (hi : i < records.length) (hf : recFails env i = true) :
    (runLoop env (records.take (i + 1))).browser = none := by
  obtain ⟨-, -, -, f4⟩ :=
    runFrom_spec env (records.take (i + 1)) 0 initSt (by simp [initSt, liveBefore])
  have hlen : (records.take (i + 1)).length = i + 1 := by
    simp [List.length_take]
    omega
  rw [hlen] at f4
  have hl : liveBefore env (0 + (i + 1)) = false := by
    simp only [Nat.zero_add]
    rw [liveBefore_succ, hf]
    rfl
  rw [hl] at f4
  rw [runLoop] at *
  cases hres : (runFrom env 0 (records.take (i + 1)) initSt).browser with
  | none => rfl
  | some b => rw [hres] at f4; simp at f4

/-- A failing record's owner name is in the accumulated failure list. -/
theorem mem_failuresFrom (env : Nat → Env) :
    ∀ (rs : List String) (b k : Nat) (r : String),
      rs.get? k = some r → recFails env (b + k) = true → r ∈ failuresFrom env b rs := by
  intro rs
  induction rs with
  | nil => intro b k r h _; simp at h
  | cons a rs ih =>
    intro b k r h hf
    cases k with
    | zero =>
      rw [List.get?_cons_zero] at h
      cases h
      have hf2 : recFails env b = true := by simpa using hf
      simp [failuresFrom, hf2]
    | succ k =>
      rw [List.get?_cons_succ] at h
      have hf2 : recFails env (b + 1 + k) = true := by
        have he2 : b + 1 + k = b + (k + 1) := by omega
        rw [he2]
        exact hf
      simp only [failuresFrom]
      exact List.mem_append_right _ (ih (b + 1) k r h hf2)

/-- Only attempted indices are recorded as `create_invoice` invocations. -/
theorem mem_attemptsFrom (env : Nat → Env) :
    ∀ (rs : List String) (b j : Nat),
      j ∈ attemptsFrom env b rs → attemptedAt env j = true := by
  intro rs
  induction rs with
  | nil => intro b j h; simp [attemptsFrom] at h
  | cons a rs ih =>
    intro b j h
    simp only [attemptsFrom] at h
    rcases List.mem_append.mp h with h1 | h2
    · cases hb : attemptedAt env b with
      | false => rw [hb] at h1; simp at h1
      | true =>
        rw [hb] at h1
        simp at h1
        subst h1
        exact hb
    · exact ih (b + 1) j h2

/-- Claim C6: if no session is live when record `i` is reached and its
initialization fails, then that owner is in the failure list, none of the
invoice-creation steps run for it (`create_invoice` is never invoked for
index `i`), and the batch still completes all records — the next record
starting again without a session (claim C2 gives the cleared handle). -/
theorem init_failure_isolated (env : Nat → Env) (records : List String) (i : Nat)
    (owner : String) (hr : records.get? i = some owner)
    (hlive : liveBefore env i = false)
    (hinit : (env i).initRes ≠ .ok) :
    owner ∈ (mainRun env records).failedOwners ∧
    i ∉ (mainRun env records).attempts ∧
    (mainRun env records).progress = records.length := by
  have hf : recFails env i = true := by
    unfold recFails
    rw [hlive]
    simp [hinit]
  have hatt : attemptedAt env i = false := by
    unfold attemptedAt
    rw [hlive]
    simp [hinit]
  obtain ⟨f1, f2, f3, f4⟩ := runFrom_spec env records 0 initSt (by simp [initSt, liveBefore])
  obtain ⟨c1, c2, c3⟩ := cleanup_fields (runLoop env records)
  refine ⟨?_, ?_, ?_⟩
  · rw [mainRun, c1, runLoop, f1]
    simp only [initSt, List.nil_append]
    exact mem_failuresFrom env records 0 i owner hr (by simpa using hf)
  · intro hmem
    rw [mainRun, c3, runLoop, f3] at hmem
    simp only [initSt, List.nil_append] at hmem
    rw [mem_attemptsFrom env records 0 i hmem] at hatt
    exact Bool.noConfusion hatt
  · rw [mainRun, c2, runLoop, f2]
    simp [initSt]

/-- Claim C7 (code bug): when initialization for record 0 fails after
`p.chromium.launch` succeeds (e.g. `page.goto` raises), the `except`
clause of `initialize_invoicer` only logs and re-raises and `main` closes
nothing because its own handle is still `None`; the launched browser is
never closed.  Once record 1 initializes successfully there are two live
browsers, and the leaked one survives even the end-of-run cleanup —
against the claim that at most one live session ever exists and that no
partially-initialized session is retained. -/
theorem leaked_browser_two_live :
    liveBrowsers (runLoop envLeak ["A", "B"]) = [0, 1] ∧
    liveBrowsers (mainRun envLeak ["A", "B"]) = [0] := by
  constructor
  · decide
  · decide

/-- Claim C2 witness: a one-record run whose `create_invoice` fails ends
with the handle cleared. -/
theorem session_cleared_witness :
    (runLoop (fun _ => ⟨.ok, true⟩) ["A"]).browser = none :=
  session_cleared_after_failure (fun _ => ⟨.ok, true⟩) ["A"] 0 (by decide) (by decide)

/-- Claim C6 witness: a one-record run whose initialization fails. -/
theorem init_failure_witness :
    "A" ∈ (mainRun (fun _ => ⟨.launchFail, false⟩) ["A"]).failedOwners ∧
    0 ∉ (mainRun (fun _ => ⟨.launchFail, false⟩) ["A"]).attempts ∧
    (mainRun (fun _ => ⟨.launchFail, false⟩) ["A"]).progress = 1 := by
  have h := init_failure_isolated (fun _ => ⟨.launchFail, false⟩) ["A"] 0 "A"
    (by decide) (by decide) (by decide)
  exact ⟨h.1, h.2.1, h.2.2⟩

/-! ## Claims C8, C9, C10: the two input parsers -/

/-- A non-matching line keeps an unset email unset. -/
theorem credLine_fst_none (st : Option String × Option String) (a : String)
    (hm : matchesEmail a = false) (h : st.1 = none) : (credLine st a).1 = none := by
  unfold credLine
  rw [hm]
  split_ifs <;> simp_all

/-- No line ever unsets a previously found email. -/
theorem credLine_fst_some (st : Option String × Option String) (a : String)
    (x : String) (h : st.1 = some x) : ∃ y, (credLine st a).1 = some y := by
  unfold credLine
  split_ifs
  · exact ⟨credValue a, rfl⟩
  · exact ⟨x, h⟩
  · exact ⟨x, h⟩

/-- A line not matching `Password: ` keeps an unset password unset. -/
theorem credLine_snd_none (st : Option String × Option String) (a : String)
    (hp : matchesPassword a = false) (h : st.2 = none) : (credLine st a).2 = none := by
  unfold credLine
  rw [hp]
  split_ifs <;> simp_all

/-- If no line matches `Email: `, the email stays unset over the loop. -/
theorem foldl_credLine_fst_none (lines : List String) :
    ∀ st : Option String × Option String, st.1 = none →
      (∀ l ∈ lines, matchesEmail l = false) →
      (List.foldl credLine st lines).1 = none := by
  induction lines with
  | nil => intro st h _; simpa using h
  | cons a ls ih =>
    intro st h hA
    rw [List.foldl_cons]
    exact ih (credLine st a)
      (credLine_fst_none st a (hA a (List.mem_cons_self a ls)) h)
      (fun l hlm => hA l (List.mem_cons_of_mem a hlm))

/-- A found email survives the rest of the loop. -/
theorem foldl_credLine_fst_some (lines : List String) :
    ∀ (st : Option String × Option String) (x : String), st.1 = some x →
      ∃ y, (List.foldl credLine st lines).1 = some y := by
  induction lines with
  | nil => intro st x h; exact ⟨x, by simpa using h⟩
  | cons a ls ih =>
    intro st x h
    rw [List.foldl_cons]
    obtain ⟨y, hy⟩ := credLine_fst_some st a x h
    exact ih (credLine st a) y hy

/-- If no line matches `Password: `, the password stays unset. -/
theorem foldl_credLine_snd_none (lines : List String) :
    ∀ st : Option String × Option String, st.2 = none →
      (∀ l ∈ lines, matchesPassword l = false) →
      (List.foldl credLine st lines).2 = none := by
  induction lines with
  | nil => intro st h _; simpa using h
  | cons a ls ih =>
    intro st h hA
    rw [List.foldl_cons]
    exact ih (credLine st a)
      (credLine_snd_none st a (hA a (List.mem_cons_self a ls)) h)
      (fun l hlm => hA l (List.mem_cons_of_mem a hlm))

/-- Some line matching `Email: ` makes the scanned email a `some`. -/
theorem foldl_credLine_fst_some_of_mem (lines : List String) :
    ∀ (st : Option String × Option String) (l : String),
      l ∈ lines → matchesEmail l = true →
      ∃ y, (List.foldl credLine st lines).1 = some y := by
  induction lines with
  | nil => intro st l hl hm; exact absurd hl (List.not_mem_nil l)
  | cons a ls ih =>
    intro st l hl hm
    rw [List.foldl_cons]
    rcases List.mem_cons.mp hl with h1 | h2
    · subst h1
      have hc : (credLine st l).1 = some (credValue l) := by
        unfold credLine
        rw [hm]
        simp
      exact foldl_credLine_fst_some ls (credLine st l) (credValue l) hc
    · exact ih (credLine st a) l h2 hm

/-- Claim C8: the two-line resource `Email: a@b.com` / `Password: secret`
yields that pair, and a resource with an `Email: ` line but no line whose
stripped form starts with `Password: ` raises the error naming the
missing Password field. -/
theorem read_credentials_spec :
    read_credentials ["Email: a@b.com", "Password: secret"] = .ok "a@b.com" "secret" ∧
    ∀ lines : List String,
      (∃ l ∈ lines, matchesEmail l = true) →
      (∀ l ∈ lines, matchesPassword l = false) →
      read_credentials lines = .err .missingPassword := by
  constructor
  · decide
  · intro lines hE hP
    obtain ⟨l, hl, hm⟩ := hE
    obtain ⟨x, hx⟩ := foldl_credLine_fst_some_of_mem lines (none, none) l hl hm
    have h2 := foldl_credLine_snd_none lines (none, none) rfl hP
    unfold read_credentials credScan
    cases hsc : List.foldl credLine (none, none) lines with
    | mk a b =>
      rw [hsc] at hx h2
      simp at hx h2
      subst hx
      subst h2
      rfl

/-- Claim C8 witness. -/
theorem read_credentials_witness :
    read_credentials ["Email: x"] = .err .missingPassword :=
  read_credentials_spec.2 ["Email: x"] (by decide) (by decide)

/-- Claim C10 counterexample: in the file `Email: : a` / `Password: b`
the Email line is present and its extracted `split(': ')[1]` value is
empty, but instead of raising the error naming the Email field,
`read_credentials` matches no branch of its final `if`/`elif` chain and
falls through, returning Python `None` (the caller then dies unpacking
it). -/
theorem matched_empty_value_cex :
    read_credentials ["Email: : a", "Password: b"] = .noneReturn := by decide

/-- Claim C10 (amended): `read_credentials` never returns an empty
credential, and for every file in which no line (after stripping, which
in particular removes the required trailing space of a bare `Email: `
line) matches the `Email: ` prefix, it raises the error naming the Email
field; but a matched line carrying an empty value is treated as unset
only by the success check — there the function returns `None` rather than
raising (see the counterexample). -/
theorem empty_credential_never_returned :
    (∀ lines : List String, (∀ l ∈ lines, matchesEmail l = false) →
      read_credentials lines = .err .missingEmail) ∧
    (∀ (lines : List String) (e p : String),
      read_credentials lines = .ok e p → e ≠ "" ∧ p ≠ "") := by
  constructor
  · intro lines hE
    have h1 := foldl_credLine_fst_none lines (none, none) rfl hE
    unfold read_credentials credScan
    cases hsc : List.foldl credLine (none, none) lines with
    | mk a b =>
      rw [hsc] at h1
      simp at h1
      subst h1
      rfl
  · intro lines e p h
    unfold read_credentials at h
    cases hsc : credScan lines with
    | mk a b =>
      rw [hsc] at h
      cases a with
      | none => exact CredResult.noConfusion h
      | some x =>
        cases b with
        | none => exact CredResult.noConfusion h
        | some y =>
          dsimp only at h
          split at h
          · cases h
            assumption
          · exact CredResult.noConfusion h

/-- Claim C10 witness: the lines `Email: ` (trailing space) and
`Password: b` raise the error naming the Email field. -/
theorem empty_credential_witness :
    read_credentials ["Email: ", "Password: b"] = .err .missingEmail :=
  empty_credential_never_returned.1 ["Email: ", "Password: b"] (by decide)

/-- Claim C9: a header containing the earlier required columns but not
`Invoice Rate` raises the error naming exactly that column; when all five
required columns are present the result keeps, for every row, exactly the
required columns in their listed order with missing cells normalized to
the empty string — extra columns are ignored, as the concrete frame with
an `Extra` column and shuffled header order shows. -/
theorem read_data_spec :
    (∀ f : Frame, "Owner Name" ∈ f.header → "Invoiceable Hours" ∈ f.header →
      "Invoice Rate" ∉ f.header →
      read_data f = .err (.missingColumn "Invoice Rate")) ∧
    (∀ f : Frame, (∀ c ∈ columnsToExtract, c ∈ f.header) →
      read_data f =
        .ok (f.rows.map (fun row => columnsToExtract.map (fun c => cell f.header row c)))) ∧
    read_data ⟨["Extra", "Invoice note", "Green Waste Number", "Invoice Rate",
                "Invoiceable Hours", "Owner Name"],
      [[some (.str "x"), some (.str "note1"), some (.num 2), some (.num 55),
        some (.num 3), some (.str "Alice")],
       [none, none, none, some (.num 60), some (.num 1), some (.str "Bob")]]⟩
      = .ok [[.str "Alice", .num 3, .num 55, .num 2, .str "note1"],
             [.str "Bob", .num 1, .num 60, .str "", .str ""]] := by
  refine ⟨?_, ?_, by decide⟩
  · intro f h1 h2 h3
    unfold read_data
    simp [columnsToExtract, List.find?, h1, h2, h3]
  · intro f hall
    unfold read_data
    have hnone : columnsToExtract.find? (fun c => !(f.header.contains c)) = none := by
      rw [List.find?_eq_none]
      intro c hc
      have := hall c hc
      simp [this]
    rw [hnone]

/-- Claim C9 witness. -/
theorem read_data_witness :
    read_data ⟨["Owner Name", "Invoiceable Hours"], []⟩ = .err (.missingColumn "Invoice Rate") :=
  read_data_spec.1 ⟨["Owner Name", "Invoiceable Hours"], []⟩ (by decide) (by decide) (by decide)

end Invoicer
